import Mathlib

/-!
Verification of the `gyt` repository facade (`src/gyt/repository.py`).

The Python code is a thin wrapper around the `git` command-line tool.  We
shallowly embed it: Python strings become `List Char` (Python strings are
sequences of code points), the subprocess boundary becomes an oracle
`Nat → Str` giving the stdout of the k-th invocation together with an
explicit trace of the argument vectors passed to `run_git_command`, and
Python exceptions become an `Except`-style error type.

String primitives (`str.split`, `str.replace`, `str.strip`,
`str.splitlines`, `str.startswith`, substring containment) are modelled
directly below; `datetime.strptime` with the fixed format
`%Y-%m-%d %H:%M:%S %z` is modelled after CPython's `_strptime` regexes.
-/

/-- Python strings are sequences of code points; we embed them as `List Char`. -/
abbrev Str := List Char

/-- The characters of a Lean string literal, used to transcribe Python literals. -/
def chars (s : String) : Str := s.data

/-- `isPrefixL p s` is Python's `s.startswith(p)` (also the prefix test used by
`str.split`'s scanner below). -/
def isPrefixL : Str → Str → Bool
  | [], _ => true
  | _ :: _, [] => false
  | a :: as, b :: bs => if a = b then isPrefixL as bs else false

/-- Python's substring containment `needle in s`. -/
def containsSub (needle : Str) : Str → Bool
  | [] => isPrefixL needle []
  | x :: xs => isPrefixL needle (x :: xs) || containsSub needle xs

/-- Scanner for Python's `s.split(sep)` with non-empty separator `c0 :: ct`:
scan left to right, splitting at each (leftmost, non-overlapping) occurrence
of the separator; `acc` holds the current segment reversed.  The `Nat`
argument is fuel making the recursion structural; one character is consumed
per step, so fuel `s.length` suffices and the zero-fuel case with a non-empty
remainder is unreachable from `pySplit`. -/
def splitGoF (c0 : Char) (ct : Str) : Nat → Str → Str → List Str
  | _, [], acc => [acc.reverse]
  | 0, s, acc => [acc.reverse ++ s]
  | fuel + 1, x :: xs, acc =>
    if x = c0 ∧ isPrefixL ct xs = true then
      acc.reverse :: splitGoF c0 ct fuel (xs.drop ct.length) []
    else
      splitGoF c0 ct fuel xs (x :: acc)

/-- Python's `s.split(sep)` for an explicit separator.  (Python raises
`ValueError` on an empty separator; every separator used by the source is a
non-empty literal, so the `[]` case is unreachable and returns `[s]`.) -/
def pySplit (sep : Str) (s : Str) : List Str :=
  match sep with
  | [] => [s]
  | c0 :: ct => splitGoF c0 ct s.length s []

/-- Python's `s.replace(old, new)` for non-empty `old`: replace every
non-overlapping occurrence, left to right.  This equals joining the pieces of
`s.split(old)` with `new`. -/
def pyReplace (old new s : Str) : Str :=
  List.intercalate new (pySplit old s)

/-- Python's `s.strip()`: remove leading and trailing whitespace.  (We use
`Char.isWhitespace`, which covers the space, tab, CR and LF characters that
occur in `git` output.) -/
def pyStrip (s : Str) : Str :=
  ((s.dropWhile Char.isWhitespace).reverse.dropWhile Char.isWhitespace).reverse

/-- Scanner for Python's `s.splitlines()`: split at `\r\n`, `\n` or `\r`,
with no trailing empty line for a terminal line break. -/
def splitlinesGo : Str → Str → List Str
  | [], acc => if acc.isEmpty then [] else [acc.reverse]
  | '\r' :: '\n' :: rest, acc => acc.reverse :: splitlinesGo rest []
  | '\n' :: rest, acc => acc.reverse :: splitlinesGo rest []
  | '\r' :: rest, acc => acc.reverse :: splitlinesGo rest []
  | x :: rest, acc => splitlinesGo rest (x :: acc)

/-- Python's `s.splitlines()` (restricted to the `\n`/`\r`/`\r\n` line breaks
that occur in `git` output). -/
def pySplitlines (s : Str) : List Str := splitlinesGo s []

example : pySplit (chars "¡|&") (chars "a¡|&b¡|&c") = [chars "a", chars "b", chars "c"] := by decide
example : pyReplace (chars "* ") [] (chars "* main") = chars "main" := by decide
example : pySplitlines (chars "a\nb\n") = [chars "a", chars "b"] := by decide
example : pyStrip (chars "  x y\t") = chars "x y" := by decide
example : containsSub (chars "new file") (chars "\tnew file:   a.txt") = true := by decide

/-!
### `datetime.strptime` with format `%Y-%m-%d %H:%M:%S %z`

The source parses the date field with
`datetime.datetime.strptime(cdate_time, '%Y-%m-%d %H:%M:%S %z')`.
We model CPython's `_strptime` behaviour for this fixed format: `%Y` is
exactly four digits; `%m`/`%d` are two digits in range (or one digit `1-9`);
`%H` is two digits `00-23` (or one digit); `%M`/`%S` are two digits `00-59`
(or one digit); a space in the format matches one or more whitespace
characters; `%z` is `Z` or a sign, two hour digits, an optional colon, two
minute digits and an optional seconds group (whose optional fractional part
is consumed but, as nothing in the repository exercises it, its value is
ignored); the whole string must be consumed; and the resulting date must be a
valid calendar date with year at least 1, as enforced by the `datetime`
constructor. -/

/-- An aware `datetime` value as produced by `strptime` with `%z`: calendar
fields plus the UTC offset of its timezone, in seconds. -/
structure DateTime where
  year : Nat
  month : Nat
  day : Nat
  hour : Nat
  minute : Nat
  second : Nat
  offsetSeconds : Int
  deriving DecidableEq

/-- The numeric value of a decimal digit character, if it is one. -/
def readDigit (c : Char) : Option Nat :=
  if c.isDigit then some (c.toNat - 48) else none

/-- Read exactly four digits (CPython's `%Y` pattern). -/
def read4 : Str → Option (Nat × Str)
  | a :: b :: c :: d :: rest => do
    let x ← readDigit a
    let y ← readDigit b
    let z ← readDigit c
    let u ← readDigit d
    some (x * 1000 + y * 100 + z * 10 + u, rest)
  | _ => none

/-- Read a two-digit number whose value lies in `[lo2, hi2]`, or failing
that a single digit in `[lo1, 9]` — the shape of CPython's `%m`, `%d`, `%H`,
`%M` and `%S` regular expressions (two-digit alternatives are tried first). -/
def read2or1 (lo2 hi2 lo1 : Nat) : Str → Option (Nat × Str)
  | [] => none
  | a :: rest =>
    match readDigit a with
    | none => none
    | some x =>
      match rest with
      | b :: rest2 =>
        match readDigit b with
        | some y =>
          if lo2 ≤ x * 10 + y ∧ x * 10 + y ≤ hi2 then some (x * 10 + y, rest2)
          else if lo1 ≤ x ∧ x ≤ 9 then some (x, b :: rest2)
          else none
        | none => if lo1 ≤ x ∧ x ≤ 9 then some (x, b :: rest2) else none
      | [] => if lo1 ≤ x ∧ x ≤ 9 then some (x, []) else none

/-- Read a required literal character. -/
def lit (c : Char) : Str → Option Str
  | x :: rest => if x = c then some rest else none
  | [] => none

/-- One or more whitespace characters: a space in a `strptime` format is
compiled to the regular expression `\s+`. -/
def ws1 : Str → Option Str
  | x :: rest => if x.isWhitespace then some (rest.dropWhile Char.isWhitespace) else none
  | [] => none

/-- Read exactly two digits. -/
def read2 : Str → Option (Nat × Str)
  | a :: b :: rest => do
    let x ← readDigit a
    let y ← readDigit b
    some (x * 10 + y, rest)
  | _ => none

/-- The optional seconds group of `%z`: an optional colon, two digits, and an
optional fraction `.d{1,6}` whose digits are consumed (its value is ignored;
no caller of the parser produces fractional offsets). `none` means the group
is not taken and the input is left untouched. -/
def readTzSeconds (s : Str) : Option (Nat × Str) :=
  let s1 := match s with
    | ':' :: r => r
    | _ => s
  match read2 s1 with
  | none => none
  | some (ss, r) =>
    match r with
    | '.' :: r2 =>
      let ds := (r2.takeWhile Char.isDigit).length
      if ds = 0 then some (ss, '.' :: r2) else some (ss, r2.drop (min ds 6))
    | _ => some (ss, r)

/-- CPython's `%z`: `Z`, or a sign, two hour digits, an optional colon, two
minute digits and the optional seconds group; the resulting offset must be
strictly less than 24 hours in magnitude (the `timezone` constructor's
bound).  Returns the offset in seconds and the remaining input. -/
def readTz : Str → Option (Int × Str)
  | [] => none
  | 'Z' :: rest => some (0, rest)
  | c :: rest =>
    if c = '+' ∨ c = '-' then
      match read2 rest with
      | none => none
      | some (hh, r1) =>
        let r1' := match r1 with
          | ':' :: r => r
          | _ => r1
        match read2 r1' with
        | none => none
        | some (mm, r2) =>
          let sr := match readTzSeconds r2 with
            | some (ss, r) => (ss, r)
            | none => (0, r2)
          let total : Int := ((hh * 3600 + mm * 60 + sr.1 : Nat) : Int)
          let signed : Int := if c = '-' then -total else total
          if -86400 < signed ∧ signed < 86400 then some (signed, sr.2) else none
    else none

/-- Whether a year is a leap year (the Gregorian rule used by `datetime`). -/
def isLeap (y : Nat) : Bool :=
  if y % 4 = 0 ∧ (y % 100 ≠ 0 ∨ y % 400 = 0) then true else false

/-- Days in a month, as validated by the `datetime` constructor. -/
def daysInMonth (y m : Nat) : Nat :=
  if m = 2 then (if isLeap y then 29 else 28)
  else if m = 4 ∨ m = 6 ∨ m = 9 ∨ m = 11 then 30
  else 31

/-- `datetime.strptime(s, '%Y-%m-%d %H:%M:%S %z')`: `none` models the
`ValueError` raised when the text does not match the pattern or the fields do
not form a valid date. -/
def parseDateTime (s : Str) : Option DateTime := do
  let (y, s) ← read4 s
  let s ← lit '-' s
  let (mo, s) ← read2or1 1 12 1 s
  let s ← lit '-' s
  let (d, s) ← read2or1 1 31 1 s
  let s ← ws1 s
  let (h, s) ← read2or1 0 23 0 s
  let s ← lit ':' s
  let (mi, s) ← read2or1 0 59 0 s
  let s ← lit ':' s
  let (sec, s) ← read2or1 0 59 0 s
  let s ← ws1 s
  let (off, s) ← readTz s
  if s = [] ∧ 1 ≤ y ∧ d ≤ daysInMonth y mo then
    some ⟨y, mo, d, h, mi, sec, off⟩
  else
    none

example : parseDateTime (chars "2023-05-01 10:00:00 +0000") =
    some ⟨2023, 5, 1, 10, 0, 0, 0⟩ := by decide
example : parseDateTime (chars "2023-05-01 10:00:00 +05:30") =
    some ⟨2023, 5, 1, 10, 0, 0, 19800⟩ := by decide
example : parseDateTime (chars "2023-2-30 10:00:00 +0000") = none := by decide
example : parseDateTime (chars "bad") = none := by decide
example : parseDateTime (chars "2023-05-01 10:00:00 +0000x") = none := by decide

/-!
### Value types and errors

`gyt.branch.Branch`, `gyt.commit.Commit` and `gyt.exceptions` are imported
by `repository.py` but their modules are not part of the sources.  Modelled
from the spec: a Branch "is a name string; equality and display are by
name", so branches are embedded as plain `Str`; a Commit "is an immutable
record of hash, author, timestamp, message"; the error kinds are
RepositoryNotFound, RepositoryEmpty, ProcessFailure and ParseFailure (the
last covering both a wrong delimiter-separated field count — Python's
unpacking `ValueError` — and a date-time text not matching the `strptime`
pattern), plus the `NameError`/`FileExistsError` built-ins that the code can
raise.
-/

/-- Which way a commit log line failed to parse. -/
inductive ParseKind where
  | fieldCount
  | dateTime
  deriving DecidableEq

/-- The errors (Python exceptions) surfaced by the repository facade. -/
inductive Err where
  | repositoryNotFound
  | repositoryEmpty
  | parseFailure (k : ParseKind)
  | nameError
  | fileExists
  deriving DecidableEq

/-- Modelled from the spec: `gyt.commit.Commit`, an immutable record of
hash, author, timestamp and message. -/
structure Commit where
  hash : Str
  author : Str
  dateTime : DateTime
  message : Str
  deriving DecidableEq

/-- The private delimiter `'¡|&'` of `Repository.last_commit` and
`Repository.get_commit_by_position`. -/
def gitDelimiter : Str := chars "¡|&"

/-- The commit-log-line parsing shared verbatim by `Repository.last_commit`
(lines 50-58) and `Repository.get_commit_by_position` (lines 178-186):
strip every `"` from the captured output, split on the private delimiter,
unpack exactly four fields (a `ValueError` otherwise) and parse the
date-time field with `strptime`. -/
def parseCommitLine (out : Str) : Except Err Commit :=
  let cleaned := pyReplace (chars "\"") [] out
  match pySplit gitDelimiter cleaned with
  | [chash, cauthor, cdateTime, cmessage] =>
    match parseDateTime cdateTime with
    | some dt => .ok ⟨chash, cauthor, dt, cmessage⟩
    | none => .error (.parseFailure .dateTime)
  | _ => .error (.parseFailure .fieldCount)

instance {ε α : Type} [DecidableEq ε] [DecidableEq α] : DecidableEq (Except ε α) := fun x y =>
  match x, y with
  | .error e, .error f => decidable_of_iff (e = f) (by simp)
  | .ok a, .ok b => decidable_of_iff (a = b) (by simp)
  | .error _, .ok _ => isFalse (by simp)
  | .ok _, .error _ => isFalse (by simp)

example : parseCommitLine (chars "h¡|&au¡|&2023-05-01 10:00:00 +0000¡|&msg") =
    .ok ⟨chars "h", chars "au", ⟨2023, 5, 1, 10, 0, 0, 0⟩, chars "msg"⟩ := by decide
example : parseCommitLine (chars "h¡|&au¡|&msg") = .error (.parseFailure .fieldCount) := by decide
example : parseCommitLine [] = .error (.parseFailure .fieldCount) := by decide

/-!
### The status parser (`Repository.status` / `Repository._clean_status_line`)
-/

/-- The four slots of the status dictionary
`{'branch': None, 'new': [], 'modified': [], 'untracked': []}`. -/
inductive Key where
  | branch
  | new
  | modified
  | untracked
  deriving DecidableEq

/-- Python's `line.startswith('On branch')`. -/
def isBranchLine (l : Str) : Bool := isPrefixL (chars "On branch") l

/-- Python's `'new file' in line`. -/
def hasNewFile (l : Str) : Bool := containsSub (chars "new file") l

/-- Python's `'modified' in line`. -/
def hasModified (l : Str) : Bool := containsSub (chars "modified") l

/-- Python's `'renamed' in line`. -/
def hasRenamed (l : Str) : Bool := containsSub (chars "renamed") l

/-- Python's `line.startswith('\t')`. -/
def startsTab (l : Str) : Bool := isPrefixL (chars "\t") l

/-- `line.replace('On branch ', '')`. -/
def branchName (l : Str) : Str := pyReplace (chars "On branch ") [] l

/-- `line.replace('\tnew file:', '').strip()`. -/
def cleanNew (l : Str) : Str := pyStrip (pyReplace (chars "\tnew file:") [] l)

/-- `line.replace('\tmodified:', '').strip()`. -/
def cleanModified (l : Str) : Str := pyStrip (pyReplace (chars "\tmodified:") [] l)

/-- `line.replace('\trenamed:', '').strip()`. -/
def cleanRenamed (l : Str) : Str := pyStrip (pyReplace (chars "\trenamed:") [] l)

/-- `Repository._clean_status_line` (lines 105-116): classify one status
line by the if/elif chain, returning the target slot and the cleaned value,
or `none` for an unclassified line. -/
def cleanStatusLine (l : Str) : Option (Key × Str) :=
  if isBranchLine l then some (.branch, branchName l)
  else if hasNewFile l then some (.new, cleanNew l)
  else if hasModified l then some (.modified, cleanModified l)
  else if hasRenamed l then some (.modified, cleanRenamed l)
  else if startsTab l then some (.untracked, pyStrip l)
  else none

/-- The status dictionary: one optional current-branch value and three
ordered path sequences. -/
structure Sections where
  branch : Option Str
  new : List Str
  modified : List Str
  untracked : List Str
  deriving DecidableEq

/-- One iteration of the loop in `Repository.status` (lines 90-101): list
slots are appended to, the branch slot is overwritten. -/
def statusStep (acc : Sections) (line : Str) : Sections :=
  match cleanStatusLine line with
  | none => acc
  | some (.branch, v) => { acc with branch := some v }
  | some (.new, v) => { acc with new := acc.new ++ [v] }
  | some (.modified, v) => { acc with modified := acc.modified ++ [v] }
  | some (.untracked, v) => { acc with untracked := acc.untracked ++ [v] }

/-- The pure core of `Repository.status` (lines 85-103): split the captured
text into lines and run the classification loop from the empty dictionary. -/
def parseStatusText (text : Str) : Sections :=
  (pySplitlines text).foldl statusStep ⟨none, [], [], []⟩

example :
    parseStatusText (chars "On branch main\n\tnew file:   a.py\n\tmodified:   b.py\n\trenamed:    c -> d\n\tuntracked.txt\nnothing else\n") =
      ⟨some (chars "main"), [chars "a.py"], [chars "b.py", chars "c -> d"], [chars "untracked.txt"]⟩ := by
  decide

/-!
### The command-execution model

`gyt.utils.run_git_command` is imported by `repository.py` but its module is
not part of the sources.  Modelled from the spec (§4.1 Command Executor):
it invokes the external executable as a child process with the given
argument tokens and returns the captured standard output decoded as UTF-8
(a non-zero exit would surface as a distinct process-failure error; the
claims below concern command construction and output parsing, so the model
covers the captured-stdout behaviour).  The external world is an oracle
mapping the invocation index to that invocation's stdout, and the state
records the trace of argument vectors issued so far.
-/

/-- A repository handle: `Repository.__init__` stores only the path (the
global arguments are the fixed `['-C', path]`). -/
structure Repo where
  path : Str
  deriving DecidableEq

/-- The stdout the external tool produces for the k-th invocation. -/
def Oracle : Type := Nat → Str

/-- The trace of argument vectors passed to `run_git_command` so far. -/
structure ExecSt where
  calls : List (List Str)
  deriving DecidableEq

/-- Modelled from the spec: `gyt.utils.run_git_command(*args)` invokes the
external tool and returns its captured stdout; here the stdout is the
oracle's answer for the current invocation index and the argument vector is
appended to the trace. -/
def runGitCommand (w : Oracle) (st : ExecSt) (args : List Str) : Str × ExecSt :=
  (w st.calls.length, ⟨st.calls ++ [args]⟩)

/-- The argument vector built by `Repository.execute` (lines 81-83):
`run_git_command(*self._global_args, *command.split(' '), *args)`. -/
def execArgv (r : Repo) (command : Str) (args : List Str) : List Str :=
  chars "-C" :: r.path :: (pySplit (chars " ") command ++ args)

/-- `Repository.execute` (lines 81-83). -/
def execute (r : Repo) (w : Oracle) (st : ExecSt) (command : Str) (args : List Str) :
    Str × ExecSt :=
  runGitCommand w st (execArgv r command args)

/-- The argument vector of a bare `status` invocation. -/
def statusArgv (r : Repo) : List Str := execArgv r (chars "status") []

/-- `Repository.current_branch` (lines 18-27): run
`rev-parse --abbrev-ref HEAD` (the Python splits the string before calling
`execute`, so `execute` receives `'rev-parse'` plus two extra arguments),
strip the output, raise `RepositoryEmpty` if it is empty, else wrap it as a
Branch (a name string). -/
def currentBranch (r : Repo) (w : Oracle) (st : ExecSt) : Except Err (Str × ExecSt) :=
  let (branch, st') := execute r w st (chars "rev-parse") [chars "--abbrev-ref", chars "HEAD"]
  let branch := pyStrip branch
  if branch = [] then .error .repositoryEmpty else .ok (branch, st')

/-- `Repository.local_branches` (lines 29-38): run `branch`, drop every
`'* '`, split lines, strip each name; raise `RepositoryEmpty` on an empty
list. -/
def localBranches (r : Repo) (w : Oracle) (st : ExecSt) : Except Err (List Str × ExecSt) :=
  let (out, st') := execute r w st (chars "branch") []
  let branch := (pySplitlines (pyReplace (chars "* ") [] out)).map pyStrip
  if branch = [] then .error .repositoryEmpty else .ok (branch, st')

/-- The formatted-log command string of `Repository.last_commit` (with the
delimiter `'¡|&'` interpolated, as the f-string produces it). -/
def logCommand : Str :=
  chars "log --pretty=format:\"%H¡|&%an¡|&%ad¡|&%s\" -1 --date=iso"

/-- `Repository.last_commit` (lines 48-58). -/
def lastCommit (r : Repo) (w : Oracle) (st : ExecSt) : Except Err (Commit × ExecSt) :=
  let (out, st') := execute r w st logCommand []
  (parseCommitLine out).map (fun c => (c, st'))

/-- The formatted-show command string of `Repository.get_commit_by_position`
for ancestor offset `position` (the f-string interpolates the position into
`HEAD~{position}`). -/
def showCommand (position : Nat) : Str :=
  chars "show HEAD~" ++ Nat.toDigits 10 position ++
    chars " --pretty=format:\"%H¡|&%an¡|&%ad¡|&%s\" --date=iso -s"

/-- `Repository.get_commit_by_position` (lines 177-186). -/
def getCommitByPosition (r : Repo) (w : Oracle) (st : ExecSt) (position : Nat) :
    Except Err (Commit × ExecSt) :=
  let (out, st') := execute r w st (showCommand position) []
  (parseCommitLine out).map (fun c => (c, st'))

/-- `Repository.status` (lines 85-103): run `status` and classify the
captured lines. -/
def gytStatus (r : Repo) (w : Oracle) (st : ExecSt) : Sections × ExecSt :=
  let (out, st') := execute r w st (chars "status") []
  (parseStatusText out, st')

/-- `Repository.add_files` (lines 118-124): `add -A` when `all_files`, else
one `add <file>` per file when the list is non-empty; then a fresh status. -/
def addFiles (r : Repo) (w : Oracle) (st : ExecSt) (files : List Str) (allFiles : Bool) :
    Sections × ExecSt :=
  let st' :=
    if allFiles then (execute r w st (chars "add -A") []).2
    else if files.length > 0 then
      files.foldl (fun acc f => (execute r w acc (chars "add") [f]).2) st
    else st
  gytStatus r w st'

/-- `Repository.commit` (lines 126-128). -/
def gytCommit (r : Repo) (w : Oracle) (st : ExecSt) (message : Str) : Sections × ExecSt :=
  let (_, st') := execute r w st (chars "commit -m") [message]
  gytStatus r w st'

/-- `Repository.add_remote` (lines 130-132): the f-string
`f'remote add {name} {url}'`. -/
def addRemote (r : Repo) (w : Oracle) (st : ExecSt) (url name : Str) : Sections × ExecSt :=
  let (_, st') := execute r w st (chars "remote add " ++ name ++ chars " " ++ url) []
  gytStatus r w st'

/-- `Repository.remove_remote` (lines 134-136). -/
def removeRemote (r : Repo) (w : Oracle) (st : ExecSt) (name : Str) : Sections × ExecSt :=
  let (_, st') := execute r w st (chars "remote remove " ++ name) []
  gytStatus r w st'

/-- The command string built by `Repository.push` (lines 143-149):
`f'push {remote_name} {local_branch}'`, then `+= f':{remote_branch}'` when
the remote branch is truthy, then `+= ' -f'` when `force`. -/
def pushCommand (remoteName localBranch : Str) (remoteBranch : Option Str) (force : Bool) :
    Str :=
  let command := chars "push " ++ remoteName ++ chars " " ++ localBranch
  let command := match remoteBranch with
    | some rb => if rb = [] then command else command ++ chars ":" ++ rb
    | none => command
  if force then command ++ chars " -f" else command

/-- The command string built by `Repository.pull` (lines 158-164). -/
def pullCommand (remoteName localBranch : Str) (remoteBranch : Option Str) (force : Bool) :
    Str :=
  let command := chars "pull " ++ remoteName ++ chars " " ++ localBranch
  let command := match remoteBranch with
    | some rb => if rb = [] then command else command ++ chars ":" ++ rb
    | none => command
  if force then command ++ chars " -f" else command

/-- `Repository.push` (lines 138-152): `local_branch or self.current_branch`
(a falsy `None`/empty argument queries the current branch, which can raise
`RepositoryEmpty`), build the command, execute it, return a fresh status. -/
def push (r : Repo) (w : Oracle) (st : ExecSt) (remoteName : Str) (force : Bool)
    (remoteBranch localBranch : Option Str) : Except Err (Sections × ExecSt) := do
  let (lb, st') ← match localBranch with
    | some b => if b = [] then currentBranch r w st else .ok (b, st)
    | none => currentBranch r w st
  let (_, st'') := execute r w st' (pushCommand remoteName lb remoteBranch force) []
  .ok (gytStatus r w st'')

/-- `Repository.pull` (lines 154-167). -/
def pull (r : Repo) (w : Oracle) (st : ExecSt) (remoteName : Str) (force : Bool)
    (remoteBranch localBranch : Option Str) : Except Err (Sections × ExecSt) := do
  let (lb, st') ← match localBranch with
    | some b => if b = [] then currentBranch r w st else .ok (b, st)
    | none => currentBranch r w st
  let (_, st'') := execute r w st' (pullCommand remoteName lb remoteBranch force) []
  .ok (gytStatus r w st'')

/-- `Repository.revert_last_commit` (lines 169-171): revert, then the fresh
last-commit record. -/
def revertLastCommit (r : Repo) (w : Oracle) (st : ExecSt) : Except Err (Commit × ExecSt) :=
  let (_, st') := execute r w st (chars "revert --no-edit HEAD") []
  lastCommit r w st'

/-- `Repository.change_last_commit_message` (lines 173-175): amend, then the
fresh last-commit record. -/
def changeLastCommitMessage (r : Repo) (w : Oracle) (st : ExecSt) (message : Str) :
    Except Err (Commit × ExecSt) :=
  let (_, st') := execute r w st (chars "commit --amend -m") [message]
  lastCommit r w st'

/-- `Repository.checkout` (lines 188-190): `f'checkout {destination}'`, then
a fresh status. -/
def gytCheckout (r : Repo) (w : Oracle) (st : ExecSt) (destination : Str) :
    Sections × ExecSt :=
  let (_, st') := execute r w st (chars "checkout " ++ destination) []
  gytStatus r w st'

/-- `Repository.create_branch` (lines 192-197): `f'branch {name}'`, an
optional checkout (whose status result is discarded), and the return value
`Branch(name)` — the branch name, not a status snapshot. -/
def createBranch (r : Repo) (w : Oracle) (st : ExecSt) (name : Str) (moveTo : Bool) :
    Str × ExecSt :=
  let (_, st') := execute r w st (chars "branch " ++ name) []
  let st'' := if moveTo then (gytCheckout r w st' name).2 else st'
  (name, st'')

/-- The merge command string built by `Repository.merge_branches`
(lines 219-227): `'merge --ff-only'`, `+= ' --squash'` when `squash`,
`+= ' --no-commit'` when not `new_commit`, then the source branch. -/
def mergeCommand (branch : Str) (squash newCommit : Bool) : Str :=
  let command := chars "merge --ff-only"
  let command := if squash then command ++ chars " --squash" else command
  let command := if newCommit then command else command ++ chars " --no-commit"
  command ++ chars " " ++ branch

/-- `Repository.merge_branches` (lines 216-231; the method is defined twice
identically and Python keeps the later definition): checkout the origin
branch (running its embedded status query), execute the merge command, and
return `Branch(branch_origin)` — the origin branch name, not a status
snapshot. -/
def mergeBranches (r : Repo) (w : Oracle) (st : ExecSt) (branchOrigin branch : Str)
    (squash newCommit : Bool) : Str × ExecSt :=
  let (_, st') := gytCheckout r w st branchOrigin
  let (_, st'') := execute r w st' (mergeCommand branch squash newCommit) []
  (branchOrigin, st'')

/-- `Repository.branches_by_commit` (lines 233-238).  The command string
embeds the literal hash `b6725c1c72bd09361531af14926e47a684a04815` (and a
spurious leading `git` token) instead of the argument's hash, and the list
comprehension `[Branch(b.strip()) for branch in ...]` reads the undefined
name `b`, so any non-empty line list raises `NameError`; the `commit`
parameter is never read. -/
def branchesByCommit (r : Repo) (w : Oracle) (st : ExecSt) (_commit : Commit) :
    Except Err (List Str) × ExecSt :=
  let (out, st') := execute r w st
    (chars "git branch --contains b6725c1c72bd09361531af14926e47a684a04815") []
  let lines := pySplitlines (pyReplace (chars "* ") [] out)
  (if lines.isEmpty then .ok [] else .error .nameError, st')

/-!
### The filesystem model for `Repository.build`

`Repository.build` (lines 64-79) touches the filesystem through
`os.path.exists`, `os.makedirs` and `Repository._create` (lines 60-62),
which calls `run_git_command('init', path)`.  The filesystem is a set of
existing paths plus a trace of the effects performed. -/

/-- A filesystem effect performed while building a repository. -/
inductive Effect where
  | makedirs (p : Str)
  | gitCommandRun (args : List Str)
  deriving DecidableEq

/-- The filesystem world: existing paths and the effect trace. -/
structure World where
  fs : List Str
  effects : List Effect
  deriving DecidableEq

/-- `os.path.join(p, q)` for the relative component `'.git'` used by
`build`: concatenate with a separator unless `p` is empty or already ends
with one. -/
def osPathJoin (p q : Str) : Str :=
  if p = [] then q
  else if p.getLast? = some '/' then p ++ q
  else p ++ chars "/" ++ q

/-- `os.makedirs(p)` (no `exist_ok`): `FileExistsError` when the directory
exists, else create it. -/
def osMakedirs (wd : World) (p : Str) : Except Err World :=
  if p ∈ wd.fs then .error .fileExists
  else .ok ⟨wd.fs ++ [p], wd.effects ++ [.makedirs p]⟩

/-- `Repository._create` (lines 60-62): `run_git_command('init', path)`.
Modelled from the spec (§6): "repository creation makes this directory
[the metadata directory] via the external tool's init operation", so the
effect adds `<path>/.git` to the filesystem and records the command. -/
def createInit (wd : World) (p : Str) : World :=
  ⟨wd.fs ++ [osPathJoin p (chars ".git")],
   wd.effects ++ [.gitCommandRun [chars "init", p]]⟩

/-- `Repository.build` (lines 64-79), with the world threaded through so
that the error path exhibits the untouched filesystem. -/
def build (wd : World) (path : Str) (createRepository createProject : Bool) :
    Except Err Repo × World :=
  let repositoryPath := osPathJoin path (chars ".git")
  let forceCreate := createRepository || createProject
  if ¬ repositoryPath ∈ wd.fs ∧ ¬ forceCreate then (.error .repositoryNotFound, wd)
  else if createProject then
    match osMakedirs wd path with
    | .error e => (.error e, wd)
    | .ok wd1 => (.ok ⟨path⟩, createInit wd1 path)
  else if createRepository then (.ok ⟨path⟩, createInit wd path)
  else (.ok ⟨path⟩, wd)

/-!
### Lemmas about the split scanner
-/

lemma isPrefixL_append (p r : Str) : isPrefixL p (p ++ r) = true := by
  induction p with
  | nil => rfl
  | cons a as ih => simp [isPrefixL, ih]

lemma splitGoF_irrel (c0 : Char) (ct : Str) :
    ∀ (f1 : Nat) (s : Str) (f2 : Nat) (acc : Str), s.length ≤ f1 → s.length ≤ f2 →
      splitGoF c0 ct f1 s acc = splitGoF c0 ct f2 s acc := by
  intro f1
  induction f1 with
  | zero =>
    intro s f2 acc h1 _
    have hs : s = [] := List.eq_nil_of_length_eq_zero (Nat.le_zero.mp h1)
    subst hs
    simp [splitGoF]
  | succ f ih =>
    intro s f2 acc h1 h2
    cases s with
    | nil => simp [splitGoF]
    | cons x xs =>
      cases f2 with
      | zero => simp at h2
      | succ g =>
        simp only [splitGoF]
        by_cases hc : x = c0 ∧ isPrefixL ct xs = true
        · rw [if_pos hc, if_pos hc]
          have hlen : (xs.drop ct.length).length ≤ f := by
            simp only [List.length_cons] at h1
            simp only [List.length_drop]
            omega
          have hlen2 : (xs.drop ct.length).length ≤ g := by
            simp only [List.length_cons] at h2
            simp only [List.length_drop]
            omega
          rw [ih _ _ _ hlen hlen2]
        · rw [if_neg hc, if_neg hc]
          have hlen : xs.length ≤ f := by simp only [List.length_cons] at h1; omega
          have hlen2 : xs.length ≤ g := by simp only [List.length_cons] at h2; omega
          exact ih _ _ _ hlen hlen2

lemma splitGoF_noOccur (c0 : Char) (ct : Str) :
    ∀ (s : Str) (fuel : Nat) (acc : Str), s.length ≤ fuel → c0 ∉ s →
      splitGoF c0 ct fuel s acc = [acc.reverse ++ s] := by
  intro s
  induction s with
  | nil => intro fuel acc _ _; simp [splitGoF]
  | cons x xs ih =>
    intro fuel acc hf hmem
    cases fuel with
    | zero => simp at hf
    | succ f =>
      have hx : ¬ (x = c0 ∧ isPrefixL ct xs = true) := by
        rintro ⟨rfl, -⟩
        exact hmem (List.mem_cons_self _ _)
      simp only [splitGoF, if_neg hx]
      have hxs : c0 ∉ xs := fun h => hmem (List.mem_cons_of_mem _ h)
      have hlen : xs.length ≤ f := by simp only [List.length_cons] at hf; omega
      rw [ih f (x :: acc) hlen hxs]
      simp

lemma splitGoF_delim (c0 : Char) (ct : Str) :
    ∀ (p : Str) (fuel frest : Nat) (rest acc : Str),
      c0 ∉ p → p.length + 1 + ct.length + rest.length ≤ fuel → rest.length ≤ frest →
      splitGoF c0 ct fuel (p ++ c0 :: (ct ++ rest)) acc =
        (acc.reverse ++ p) :: splitGoF c0 ct frest rest [] := by
  intro p
  induction p with
  | nil =>
    intro fuel frest rest acc _ hf hr
    cases fuel with
    | zero => omega
    | succ f =>
      simp only [List.nil_append, splitGoF]
      rw [if_pos (by simp [isPrefixL_append]), List.drop_left]
      rw [splitGoF_irrel c0 ct f rest frest [] (by simp at hf; omega) hr]
      simp
  | cons y p ih =>
    intro fuel frest rest acc hp hf hr
    cases fuel with
    | zero => simp at hf
    | succ f =>
      simp only [List.cons_append, splitGoF]
      rw [if_neg (by rintro ⟨rfl, -⟩; exact hp (List.mem_cons_self _ _))]
      simp only [List.append_eq]
      have hp' : c0 ∉ p := fun h => hp (List.mem_cons_of_mem _ h)
      rw [ih f frest rest (y :: acc) hp' (by simp at hf ⊢; omega) hr]
      simp

lemma pySplit_noOccur (c0 : Char) (ct s : Str) (h : c0 ∉ s) :
    pySplit (c0 :: ct) s = [s] := by
  simp only [pySplit]
  rw [splitGoF_noOccur c0 ct s s.length [] le_rfl h]
  simp

lemma pySplit_delim (c0 : Char) (ct p rest : Str) (hp : c0 ∉ p) :
    pySplit (c0 :: ct) (p ++ c0 :: (ct ++ rest)) = p :: pySplit (c0 :: ct) rest := by
  simp only [pySplit]
  rw [splitGoF_delim c0 ct p _ rest.length rest [] hp (by simp; omega) le_rfl]
  simp

lemma pyReplace_self (c0 : Char) (ct new s : Str) (h : c0 ∉ s) :
    pyReplace (c0 :: ct) new s = s := by
  simp [pyReplace, pySplit_noOccur c0 ct s h, List.intercalate]

lemma gitDelimiter_eq : gitDelimiter = '¡' :: chars "|&" := rfl

lemma pySplit_four (h a d m : Str) (hh : '¡' ∉ h) (ha : '¡' ∉ a) (hd : '¡' ∉ d)
    (hm : '¡' ∉ m) :
    pySplit gitDelimiter
        (h ++ gitDelimiter ++ a ++ gitDelimiter ++ d ++ gitDelimiter ++ m) =
      [h, a, d, m] := by
  rw [gitDelimiter_eq]
  simp only [List.append_assoc, List.cons_append]
  rw [pySplit_delim '¡' (chars "|&") h _ hh,
    pySplit_delim '¡' (chars "|&") a _ ha,
    pySplit_delim '¡' (chars "|&") d _ hd,
    pySplit_noOccur '¡' (chars "|&") m hm]

lemma parseCommitLine_eval (line h a d m : Str)
    (hx : pySplit gitDelimiter (pyReplace (chars "\"") [] line) = [h, a, d, m]) :
    parseCommitLine line =
      match parseDateTime d with
      | some dt => .ok ⟨h, a, dt, m⟩
      | none => .error (.parseFailure .dateTime) := by
  simp only [parseCommitLine]
  rw [hx]

/-- C2: parsing a log line built by joining the four fields hash, author,
`2023-05-01 10:00:00 +0000` and subject with the private delimiter `¡|&`
yields a Commit whose hash, author and message equal the original strings
exactly and whose date-time equals 2023-05-01T10:00:00+00:00.  The
hypotheses state that the free fields contain no `¡` (every occurrence of
the delimiter contains one, so delimiter-free fields in the sense of the
spec satisfy them) and no `"` (which the parser strips from the line). -/
theorem commit_roundTrip (h a m : Str)
    (hh : '¡' ∉ h) (ha : '¡' ∉ a) (hm : '¡' ∉ m)
    (qh : '"' ∉ h) (qa : '"' ∉ a) (qm : '"' ∉ m) :
    parseCommitLine (h ++ gitDelimiter ++ a ++ gitDelimiter ++
        chars "2023-05-01 10:00:00 +0000" ++ gitDelimiter ++ m) =
      .ok ⟨h, a, ⟨2023, 5, 1, 10, 0, 0, 0⟩, m⟩ := by
  have hq : '"' ∉ (h ++ gitDelimiter ++ a ++ gitDelimiter ++
      chars "2023-05-01 10:00:00 +0000" ++ gitDelimiter ++ m) := by
    simp only [List.mem_append, not_or]
    exact ⟨⟨⟨⟨⟨⟨qh, by decide⟩, qa⟩, by decide⟩, by decide⟩, by decide⟩, qm⟩
  simp only [parseCommitLine]
  rw [show (chars "\"") = '"' :: ([] : Str) from rfl, pyReplace_self '"' [] [] _ hq,
    pySplit_four h a _ m hh ha (by decide) hm]
  rfl

/-- Witness for `commit_roundTrip` at concrete delimiter-free fields. -/
theorem commit_roundTrip_witness :
    parseCommitLine (chars "abc123" ++ gitDelimiter ++ chars "Jane Doe" ++ gitDelimiter ++
        chars "2023-05-01 10:00:00 +0000" ++ gitDelimiter ++ chars "initial commit") =
      .ok ⟨chars "abc123", chars "Jane Doe", ⟨2023, 5, 1, 10, 0, 0, 0⟩,
        chars "initial commit"⟩ :=
  commit_roundTrip (chars "abc123") (chars "Jane Doe") (chars "initial commit")
    (by decide) (by decide) (by decide) (by decide) (by decide) (by decide)

/-- C3: a log line that does not split on the private delimiter into exactly
four fields makes the commit-log parser fail with a field-count parse error
(Python's unpacking `ValueError`) — never a truncated or partially filled
Commit — and a line splitting into four fields whose date-time field does
not match the `strptime` pattern fails with a date-time parse error. -/
theorem commitLine_parseFailure :
    (∀ line : Str,
        (pySplit gitDelimiter (pyReplace (chars "\"") [] line)).length ≠ 4 →
          parseCommitLine line = .error (.parseFailure .fieldCount)) ∧
      (∀ line h a d m : Str,
        pySplit gitDelimiter (pyReplace (chars "\"") [] line) = [h, a, d, m] →
          parseDateTime d = none →
          parseCommitLine line = .error (.parseFailure .dateTime)) := by
  constructor
  · intro line hlen
    simp only [parseCommitLine]
    rcases hx : pySplit gitDelimiter (pyReplace (chars "\"") [] line) with
      _ | ⟨f1, _ | ⟨f2, _ | ⟨f3, _ | ⟨f4, _ | ⟨f5, t⟩⟩⟩⟩⟩
    · rfl
    · rfl
    · rfl
    · rfl
    · exact absurd (by rw [hx]; rfl) hlen
    · rfl
  · intro line h a d m hx hdate
    rw [parseCommitLine_eval line h a d m hx, hdate]

/-- Witness for `commitLine_parseFailure`: a two-field line fails with the
field-count error; a four-field line with date `bad` fails with the
date-time error. -/
theorem commitLine_parseFailure_witness :
    parseCommitLine (chars "h¡|&a") = .error (.parseFailure .fieldCount) ∧
      parseCommitLine (chars "h¡|&a¡|&bad¡|&m") = .error (.parseFailure .dateTime) :=
  ⟨commitLine_parseFailure.1 (chars "h¡|&a") (by decide),
   commitLine_parseFailure.2 (chars "h¡|&a¡|&bad¡|&m") (chars "h") (chars "a")
     (chars "bad") (chars "m") (by decide) (by decide)⟩

/-!
### The status-classification characterization (C1)

The claim describes the classifier as a fixed priority chain; the functions
below spell out, for each target sequence, exactly which lines feed it and
with which cleaned value, so that the status parser can be characterized as
order-preserving `filterMap`s plus a last-wins branch slot.
-/

/-- The branch value a line contributes: lines beginning with the
branch-announcement prefix, with the prefix removed. -/
def branchVal (l : Str) : Option Str :=
  if isBranchLine l then some (branchName l) else none

/-- The path a line contributes to the `new` sequence: lines containing the
new-file marker that are not branch announcements, marker stripped and
trimmed. -/
def newPath (l : Str) : Option Str :=
  if ¬ isBranchLine l ∧ hasNewFile l then some (cleanNew l) else none

/-- The path a line contributes to the `modified` sequence: non-branch,
non-new-file lines containing the modified marker (cleaned with the
modified marker), or else such lines containing the renamed marker (cleaned
with the renamed marker). -/
def modifiedPath (l : Str) : Option Str :=
  if ¬ isBranchLine l ∧ ¬ hasNewFile l ∧ hasModified l then some (cleanModified l)
  else if ¬ isBranchLine l ∧ ¬ hasNewFile l ∧ ¬ hasModified l ∧ hasRenamed l then
    some (cleanRenamed l)
  else none

/-- The value a line contributes to the `untracked` sequence: tab-indented
lines matching none of the earlier rules, trimmed. -/
def untrackedVal (l : Str) : Option Str :=
  if ¬ isBranchLine l ∧ ¬ hasNewFile l ∧ ¬ hasModified l ∧ ¬ hasRenamed l ∧ startsTab l
  then some (pyStrip l) else none

lemma statusStep_eq (acc : Sections) (l : Str) :
    statusStep acc l =
      ⟨(match branchVal l with
        | some v => some v
        | none => acc.branch),
       acc.new ++ (newPath l).toList,
       acc.modified ++ (modifiedPath l).toList,
       acc.untracked ++ (untrackedVal l).toList⟩ := by
  by_cases hb : isBranchLine l <;>
    by_cases hn : hasNewFile l <;>
      by_cases hm : hasModified l <;>
        by_cases hr : hasRenamed l <;>
          by_cases ht : startsTab l <;>
            simp [statusStep, cleanStatusLine, branchVal, newPath, modifiedPath,
              untrackedVal, hb, hn, hm, hr, ht]

lemma foldl_statusStep (ls : List Str) (acc : Sections) :
    ls.foldl statusStep acc =
      ⟨(match (ls.filterMap branchVal).getLast? with
        | some v => some v
        | none => acc.branch),
       acc.new ++ ls.filterMap newPath,
       acc.modified ++ ls.filterMap modifiedPath,
       acc.untracked ++ ls.filterMap untrackedVal⟩ := by
  induction ls using List.reverseRecOn with
  | nil => simp
  | append_singleton ls l ih =>
    rw [List.foldl_append, List.foldl_cons, List.foldl_nil, ih, statusStep_eq]
    rcases hbv : branchVal l with _ | v <;>
      simp [List.filterMap_append, List.filterMap_cons, hbv, List.getLast?_concat,
        List.append_assoc] <;>
      exact ⟨by cases newPath l <;> rfl, by cases modifiedPath l <;> rfl,
        by cases untrackedVal l <;> rfl⟩

/-- C1: for every status text, the parser classifies each line by the fixed
priority order (branch-announcement prefix, new-file marker, modified
marker, renamed marker, leading tab), appending new-file paths to `new`,
modified and renamed paths to `modified`, and tab-indented lines matching no
earlier rule to `untracked`; each sequence is the order-preserving
`filterMap` of its classifier over the input lines, and the branch slot
holds the value of the last branch-announcement line (`getLast?`), so at
most one current-branch value is kept, the last one winning. -/
theorem status_priority_classification (text : Str) :
    parseStatusText text =
      ⟨((pySplitlines text).filterMap branchVal).getLast?,
       (pySplitlines text).filterMap newPath,
       (pySplitlines text).filterMap modifiedPath,
       (pySplitlines text).filterMap untrackedVal⟩ := by
  unfold parseStatusText
  rw [foldl_statusStep]
  cases hb : ((pySplitlines text).filterMap branchVal).getLast? <;> simp [hb]

/-!
### Concrete fixtures for witnesses and counterexamples
-/

/-- A concrete repository handle at path `.`. -/
def r0 : Repo := ⟨chars "."⟩

/-- The empty invocation trace. -/
def st0 : ExecSt := ⟨[]⟩

/-- An oracle whose every invocation prints `main`. -/
def wMain : Oracle := fun _ => chars "main"

/-- An oracle whose every invocation prints nothing. -/
def wEmpty : Oracle := fun _ => []

/-!
### Traces and return values of the mutating operations (C4)
-/

lemma addFiles_loop (r : Repo) (w : Oracle) :
    ∀ (files : List Str) (st : ExecSt),
      files.foldl (fun acc f => (execute r w acc (chars "add") [f]).2) st =
        ⟨st.calls ++ files.map (fun f => execArgv r (chars "add") [f])⟩ := by
  intro files
  induction files with
  | nil => intro st; simp
  | cons f fs ih =>
    intro st
    rw [List.foldl_cons, ih]
    simp [execute, runGitCommand, List.append_assoc]

/-- C4 (amended): `add`, `commit`, `remote add`, `remote remove`, `push`,
`pull` and `checkout` return the status snapshot parsed from the output of a
`status` invocation issued after their mutating command(s) — the last entry
of the trace is the status query and the returned sections are parsed from
the oracle's answer at that fresh index, never from an earlier answer;
`revert` and `amend` likewise return the last-commit record parsed from a
log query issued after the mutating command; but `create_branch` and
`merge_branches` return the Branch name instead (`create_branch` issues no
status query at all unless `move_to` is set, and `merge_branches` only runs
the status query embedded in its initial checkout, before the merge
command). -/
theorem ops_return_fresh_results :
    (∀ (r : Repo) (w : Oracle) (st : ExecSt) (files : List Str),
      addFiles r w st files false =
        (parseStatusText (w (st.calls.length + files.length)),
         ⟨st.calls ++ files.map (fun f => execArgv r (chars "add") [f]) ++
           [statusArgv r]⟩)) ∧
    (∀ (r : Repo) (w : Oracle) (st : ExecSt) (files : List Str),
      addFiles r w st files true =
        (parseStatusText (w (st.calls.length + 1)),
         ⟨st.calls ++ [execArgv r (chars "add -A") [], statusArgv r]⟩)) ∧
    (∀ (r : Repo) (w : Oracle) (st : ExecSt) (message : Str),
      gytCommit r w st message =
        (parseStatusText (w (st.calls.length + 1)),
         ⟨st.calls ++ [execArgv r (chars "commit -m") [message], statusArgv r]⟩)) ∧
    (∀ (r : Repo) (w : Oracle) (st : ExecSt) (url name : Str),
      addRemote r w st url name =
        (parseStatusText (w (st.calls.length + 1)),
         ⟨st.calls ++ [execArgv r (chars "remote add " ++ name ++ chars " " ++ url) [],
           statusArgv r]⟩)) ∧
    (∀ (r : Repo) (w : Oracle) (st : ExecSt) (name : Str),
      removeRemote r w st name =
        (parseStatusText (w (st.calls.length + 1)),
         ⟨st.calls ++ [execArgv r (chars "remote remove " ++ name) [], statusArgv r]⟩)) ∧
    (∀ (r : Repo) (w : Oracle) (st : ExecSt) (remoteName : Str) (force : Bool)
        (remoteBranch : Option Str) (c : Char) (bs : Str),
      push r w st remoteName force remoteBranch (some (c :: bs)) =
        .ok (parseStatusText (w (st.calls.length + 1)),
          ⟨st.calls ++ [execArgv r (pushCommand remoteName (c :: bs) remoteBranch force) [],
            statusArgv r]⟩)) ∧
    (∀ (r : Repo) (w : Oracle) (st : ExecSt) (remoteName : Str) (force : Bool)
        (remoteBranch : Option Str) (c : Char) (bs : Str),
      pull r w st remoteName force remoteBranch (some (c :: bs)) =
        .ok (parseStatusText (w (st.calls.length + 1)),
          ⟨st.calls ++ [execArgv r (pullCommand remoteName (c :: bs) remoteBranch force) [],
            statusArgv r]⟩)) ∧
    (∀ (r : Repo) (w : Oracle) (st : ExecSt) (destination : Str),
      gytCheckout r w st destination =
        (parseStatusText (w (st.calls.length + 1)),
         ⟨st.calls ++ [execArgv r (chars "checkout " ++ destination) [], statusArgv r]⟩)) ∧
    (∀ (r : Repo) (w : Oracle) (st : ExecSt),
      revertLastCommit r w st =
        (parseCommitLine (w (st.calls.length + 1))).map
          (fun c => (c, ⟨st.calls ++ [execArgv r (chars "revert --no-edit HEAD") [],
            execArgv r logCommand []]⟩))) ∧
    (∀ (r : Repo) (w : Oracle) (st : ExecSt) (message : Str),
      changeLastCommitMessage r w st message =
        (parseCommitLine (w (st.calls.length + 1))).map
          (fun c => (c, ⟨st.calls ++ [execArgv r (chars "commit --amend -m") [message],
            execArgv r logCommand []]⟩))) ∧
    (∀ (r : Repo) (w : Oracle) (st : ExecSt) (name : Str) (moveTo : Bool),
      createBranch r w st name moveTo =
        (name,
         ⟨st.calls ++ [execArgv r (chars "branch " ++ name) []] ++
           (if moveTo then [execArgv r (chars "checkout " ++ name) [], statusArgv r]
            else [])⟩)) ∧
    (∀ (r : Repo) (w : Oracle) (st : ExecSt) (branchOrigin branch : Str)
        (squash newCommit : Bool),
      mergeBranches r w st branchOrigin branch squash newCommit =
        (branchOrigin,
         ⟨st.calls ++ [execArgv r (chars "checkout " ++ branchOrigin) [], statusArgv r,
           execArgv r (mergeCommand branch squash newCommit) []]⟩)) := by
  refine ⟨?_, ?_, ?_, ?_, ?_, ?_, ?_, ?_, ?_, ?_, ?_, ?_⟩
  · intro r w st files
    cases files with
    | nil => simp [addFiles, gytStatus, execute, runGitCommand, statusArgv]
    | cons f fs =>
      simp only [addFiles, List.length_cons]
      rw [if_neg (show ¬ (false = true) from by decide), if_pos (Nat.succ_pos fs.length)]
      rw [addFiles_loop]
      simp [gytStatus, execute, runGitCommand, statusArgv, List.append_assoc,
        List.length_append, List.length_map]
  · intro r w st files
    simp [addFiles, gytStatus, execute, runGitCommand, statusArgv, List.append_assoc]
  · intro r w st message
    simp [gytCommit, gytStatus, execute, runGitCommand, statusArgv, List.append_assoc]
  · intro r w st url name
    simp [addRemote, gytStatus, execute, runGitCommand, statusArgv, List.append_assoc]
  · intro r w st name
    simp [removeRemote, gytStatus, execute, runGitCommand, statusArgv, List.append_assoc]
  · intro r w st remoteName force remoteBranch c bs
    simp [push, gytStatus, execute, runGitCommand, statusArgv, List.append_assoc,
      Bind.bind, Except.bind]
  · intro r w st remoteName force remoteBranch c bs
    simp [pull, gytStatus, execute, runGitCommand, statusArgv, List.append_assoc,
      Bind.bind, Except.bind]
  · intro r w st destination
    simp [gytCheckout, gytStatus, execute, runGitCommand, statusArgv, List.append_assoc]
  · intro r w st
    simp [revertLastCommit, lastCommit, execute, runGitCommand, List.append_assoc]
  · intro r w st message
    simp [changeLastCommitMessage, lastCommit, execute, runGitCommand, List.append_assoc]
  · intro r w st name moveTo
    cases moveTo <;>
      simp [createBranch, gytCheckout, gytStatus, execute, runGitCommand, statusArgv,
        List.append_assoc]
  · intro r w st branchOrigin branch squash newCommit
    simp [mergeBranches, gytCheckout, gytStatus, execute, runGitCommand, statusArgv,
      List.append_assoc]

/-- C4 counterexample: `create_branch` (with `move_to=False`) issues exactly
one command — no `status` re-query occurs — and returns the branch name
`feat`, not a status snapshot; so not every mutating operation other than
revert/amend returns a freshly recomputed status snapshot. -/
theorem createBranch_no_status_requery :
    (createBranch r0 wMain st0 (chars "feat") false).2.calls =
        [execArgv r0 (chars "branch feat") []] ∧
      statusArgv r0 ∉ (createBranch r0 wMain st0 (chars "feat") false).2.calls ∧
      (createBranch r0 wMain st0 (chars "feat") false).1 = chars "feat" := by
  refine ⟨by decide, by decide, by decide⟩

lemma pushCommand_origin_feature (cur : Str) (force : Bool) :
    pushCommand (chars "origin") cur (some (chars "feature")) force =
      chars "push origin " ++ cur ++ chars ":feature" ++
        (if force then chars " -f" else []) := by
  have hf : ¬ (chars "feature" = ([] : Str)) := by decide
  cases force <;>
    · simp only [pushCommand, if_neg hf, List.append_assoc]
      rfl

/-- C5: `push` with `remote_branch="feature"` and no explicit local branch
first queries the current branch; the mutating command it then issues has
the command string `push origin <current-branch>:feature`, whose refspec
segment is `<current-branch>:feature`, with the force flag ` -f` appended
after the refspec exactly when `force` is set; a fresh status query follows. -/
theorem push_refspec (r : Repo) (w : Oracle) (st : ExecSt) (force : Bool) (cur : Str)
    (hcur : pyStrip (w st.calls.length) = cur) (hne : cur ≠ []) :
    push r w st (chars "origin") force (some (chars "feature")) none =
      .ok (parseStatusText (w (st.calls.length + 2)),
        ⟨st.calls ++
          [execArgv r (chars "rev-parse") [chars "--abbrev-ref", chars "HEAD"],
           execArgv r (chars "push origin " ++ cur ++ chars ":feature" ++
             (if force then chars " -f" else [])) [],
           statusArgv r]⟩) := by
  have hcb : currentBranch r w st =
      .ok (cur, ⟨st.calls ++
        [execArgv r (chars "rev-parse") [chars "--abbrev-ref", chars "HEAD"]]⟩) := by
    simp [currentBranch, execute, runGitCommand, hcur, hne]
  simp only [push]
  rw [hcb]
  simp [Bind.bind, Except.bind, gytStatus, execute, runGitCommand, statusArgv,
    pushCommand_origin_feature, List.append_assoc, List.length_append]

/-- Witness for `push_refspec`: with the oracle printing `main`, forced push
to remote branch `feature` issues `push origin main:feature -f` after the
branch query and before the fresh status query. -/
theorem push_refspec_witness :
    push r0 wMain st0 (chars "origin") true (some (chars "feature")) none =
      .ok (parseStatusText (wMain 2),
        ⟨[execArgv r0 (chars "rev-parse") [chars "--abbrev-ref", chars "HEAD"],
          execArgv r0 (chars "push origin main:feature -f") [],
          statusArgv r0]⟩) := by
  have h := push_refspec r0 wMain st0 true (chars "main") rfl (by decide)
  exact h

/-- C6: `merge_branches` with `squash=True` and `new_commit=False` issues a
merge command that is simultaneously fast-forward-only, squashed and
uncommitted — `merge --ff-only --squash --no-commit <branch>`, all three
flags followed by the source branch name — after checking out the origin
branch.  (That a merge between diverging histories then fails rather than
silently creating a merge commit is the external tool's documented
`--ff-only` behaviour, guaranteed by the flag's presence.) -/
theorem merge_ffOnly_squash_noCommit (r : Repo) (w : Oracle) (st : ExecSt) (o b : Str) :
    mergeBranches r w st o b true false =
      (o, ⟨st.calls ++
        [execArgv r (chars "checkout " ++ o) [], statusArgv r,
         execArgv r (chars "merge --ff-only --squash --no-commit " ++ b) []]⟩) := by
  have hm : mergeCommand b true false =
      chars "merge --ff-only --squash --no-commit " ++ b := rfl
  simp [mergeBranches, gytCheckout, gytStatus, execute, runGitCommand, statusArgv, hm,
    List.append_assoc]

/-- C7: building a repository handle for a path whose metadata directory
`<path>/.git` does not exist, with neither repository creation nor project
creation requested, raises RepositoryNotFound and leaves the world untouched
— no directory is created and no external command is run. -/
theorem build_missing_repo_raises (wd : World) (path : Str)
    (h : osPathJoin path (chars ".git") ∉ wd.fs) :
    build wd path false false = (.error .repositoryNotFound, wd) := by
  simp [build, h]

/-- Witness for `build_missing_repo_raises` on the empty filesystem. -/
theorem build_missing_repo_raises_witness :
    build ⟨[], []⟩ (chars "p") false false = (.error .repositoryNotFound, ⟨[], []⟩) :=
  build_missing_repo_raises ⟨[], []⟩ (chars "p") (by decide)

/-- C8: building with project creation requested on a non-existent path
first creates the containing directory (`os.makedirs`), then creates the
metadata directory via the external tool's `init` operation, and returns a
usable handle bound to that path. -/
theorem build_createProject (wd : World) (path : Str) (h : path ∉ wd.fs) :
    build wd path false true =
      (.ok ⟨path⟩,
       ⟨wd.fs ++ [path, osPathJoin path (chars ".git")],
        wd.effects ++ [.makedirs path, .gitCommandRun [chars "init", path]]⟩) := by
  simp [build, osMakedirs, h, createInit, List.append_assoc]

/-- Witness for `build_createProject` on the empty filesystem. -/
theorem build_createProject_witness :
    build ⟨[], []⟩ (chars "p") false true =
      (.ok ⟨chars "p"⟩,
       ⟨[chars "p", osPathJoin (chars "p") (chars ".git")],
        [.makedirs (chars "p"), .gitCommandRun [chars "init", chars "p"]]⟩) :=
  build_createProject ⟨[], []⟩ (chars "p") (by decide)

/-- C9 (amended): on empty output, `current_branch` and `local_branches`
raise RepositoryEmpty, but `last_commit` instead fails with the field-count
parse error — the empty line splits into one field, so the four-way
unpacking raises Python's `ValueError`, not `RepositoryEmpty`. -/
theorem empty_output_behaviour :
    (∀ (r : Repo) (w : Oracle) (st : ExecSt), pyStrip (w st.calls.length) = [] →
        currentBranch r w st = .error .repositoryEmpty) ∧
      (∀ (r : Repo) (w : Oracle) (st : ExecSt), w st.calls.length = [] →
        localBranches r w st = .error .repositoryEmpty) ∧
      (∀ (r : Repo) (w : Oracle) (st : ExecSt), w st.calls.length = [] →
        lastCommit r w st = .error (.parseFailure .fieldCount)) := by
  refine ⟨?_, ?_, ?_⟩
  · intro r w st h
    simp [currentBranch, execute, runGitCommand, h]
  · intro r w st h
    simp only [localBranches, execute, runGitCommand, h]
    rfl
  · intro r w st h
    simp only [lastCommit, execute, runGitCommand, h]
    rfl

/-- Witness for `empty_output_behaviour` with the empty-output oracle. -/
theorem empty_output_behaviour_witness :
    currentBranch r0 wEmpty st0 = .error .repositoryEmpty ∧
      localBranches r0 wEmpty st0 = .error .repositoryEmpty ∧
      lastCommit r0 wEmpty st0 = .error (.parseFailure .fieldCount) :=
  ⟨empty_output_behaviour.1 r0 wEmpty st0 rfl,
   empty_output_behaviour.2.1 r0 wEmpty st0 rfl,
   empty_output_behaviour.2.2 r0 wEmpty st0 rfl⟩

/-- C9 counterexample: `last_commit` receiving empty text from the external
tool does not raise RepositoryEmpty — it fails with the field-count parse
error (the unpacking `ValueError`), so not every branch or log query raises
RepositoryEmpty on empty text. -/
theorem lastCommit_empty_not_repositoryEmpty :
    lastCommit r0 wEmpty st0 = .error (.parseFailure .fieldCount) ∧
      Err.parseFailure .fieldCount ≠ Err.repositoryEmpty := by
  exact ⟨rfl, by decide⟩

/-- C10: `branches_by_commit` behaves identically for every pair of Commit
arguments — it never reads its parameter — and the single command it issues
embeds the hard-coded hash literal
`b6725c1c72bd09361531af14926e47a684a04815` (plus a spurious leading `git`
token) instead of the argument's hash. -/
theorem branchesByCommit_ignores_commit (r : Repo) (w : Oracle) (st : ExecSt)
    (c1 c2 : Commit) :
    branchesByCommit r w st c1 = branchesByCommit r w st c2 ∧
      (branchesByCommit r w st c1).2.calls =
        st.calls ++
          [execArgv r
            (chars "git branch --contains b6725c1c72bd09361531af14926e47a684a04815")
            []] :=
  ⟨rfl, by simp [branchesByCommit, execute, runGitCommand]⟩
